import Mathlib

/-!
Verification of the near-Earth-object exploration tool (src/models.py,
src/extract.py, src/filters.py, src/write.py) against its specification.

The Python code is shallowly embedded: Python floats become an explicit
not-a-number-or-rational type `NumVal`, dynamically typed comparison
values become the `Value` type, exceptions become `Except`, iterators and
sets become lists, and CSV rows / JSON documents become explicit trees.
Raw text fields that the code hands to the Python float constructor or to
the datetime parser are embedded as small inductives recording whether
the text parses (the parsing functions themselves live in the standard
library or in a helpers module outside the four source files).
-/

/-- A Python float value as used by the program: either the NaN sentinel
(`float("nan")`, stored for an unknown diameter) or an ordinary number,
embedded as a rational. -/
inductive NumVal
  | nan
  | q (x : ℚ)
deriving DecidableEq, Repr

/-- A calendar date, as produced by `datetime.date()`. -/
structure Date where
  year : Nat
  month : Nat
  day : Nat
deriving DecidableEq, Repr

/-- Python date ordering: lexicographic on (year, month, day). -/
def Date.ble (a b : Date) : Bool :=
  decide (a.year < b.year) ||
    (decide (a.year = b.year) &&
      (decide (a.month < b.month) ||
        (decide (a.month = b.month) && decide (a.day ≤ b.day))))

/-- A timestamp as produced by `cd_to_datetime`: the close-approach data
carries year, month, day, hour and minute (no seconds). -/
structure DateTime where
  year : Nat
  month : Nat
  day : Nat
  hour : Nat
  minute : Nat
deriving DecidableEq, Repr

/-- `datetime.date()`: truncate a timestamp to its calendar date. -/
def DateTime.toDate (t : DateTime) : Date :=
  { year := t.year, month := t.month, day := t.day }

/-- Zero-padded two-digit decimal rendering, as in datetime formatting. -/
def pad2 (n : Nat) : String :=
  if n < 10 then "0" ++ toString n else toString n

/-- Zero-padded four-digit decimal rendering of a year. -/
def pad4 (n : Nat) : String :=
  if n < 10 then "000" ++ toString n
  else if n < 100 then "00" ++ toString n
  else if n < 1000 then "0" ++ toString n
  else toString n

/-- Modelled from the spec: the canonical string form of a full timestamp
(Python `str(datetime)`), which is NOT truncated: it keeps the seconds
field, `YYYY-MM-DD HH:MM:SS` (the parsed data has zero seconds). -/
def DateTime.canonicalStr (t : DateTime) : String :=
  pad4 t.year ++ "-" ++ pad2 t.month ++ "-" ++ pad2 t.day ++ " " ++
    pad2 t.hour ++ ":" ++ pad2 t.minute ++ ":00"

/-- Modelled from the spec: `helpers.datetime_to_str` (the helpers module
is not among the four source files), described as the human-readable
format with the seconds omitted: `YYYY-MM-DD HH:MM`. -/
def datetime_to_str (t : DateTime) : String :=
  pad4 t.year ++ "-" ++ pad2 t.month ++ "-" ++ pad2 t.day ++ " " ++
    pad2 t.hour ++ ":" ++ pad2 t.minute

/-- A near-Earth object (src/models.py `NearEarthObject`) after
construction. The `approaches` collection (always constructed empty and
only populated later by the database join, which lives outside the four
source files) is omitted. -/
structure NearEarthObject where
  designation : String
  name : Option String
  diameter : NumVal
  hazardous : Bool
deriving DecidableEq, Repr

/-- `NearEarthObject.fullname` (src/models.py): the designation, followed
by a space and the name when a name is present. -/
def NearEarthObject.fullname (neo : NearEarthObject) : String :=
  match neo.name with
  | some n => neo.designation ++ " " ++ n
  | none => neo.designation

/-- A close approach (src/models.py `CloseApproach`). The `neo` field is
`none` right after construction and holds the resolved object after the
database join. -/
structure CloseApproach where
  designation : String
  time : DateTime
  distance : NumVal
  velocity : NumVal
  neo : Option NearEarthObject
deriving DecidableEq, Repr

/-- Errors raised while evaluating a filter: `UnsupportedCriterionError`
from the unspecialized accessor, Python `TypeError` from an unorderable
comparison, Python `AttributeError` from touching a field of `None`. -/
inductive FilterError
  | unsupportedCriterion
  | typeError
  | attributeError
deriving DecidableEq, Repr

/-- The three comparison operators the filter factory uses:
`operator.eq`, `operator.ge`, `operator.le`. -/
inductive Comparator
  | eq
  | ge
  | le
deriving DecidableEq, Repr

/-- A dynamically typed Python value that a filter accessor can return
and comparisons operate on: a calendar date, a float, or a bool. -/
inductive Value
  | date (d : Date)
  | num (x : NumVal)
  | bool (b : Bool)
deriving DecidableEq, Repr

/-- Comparison of two floats: any comparison touching NaN is false. -/
def NumVal.cmp (c : Comparator) (x y : NumVal) : Bool :=
  match x, y with
  | .nan, _ => false
  | _, .nan => false
  | .q a, .q b =>
    match c with
    | .eq => decide (a = b)
    | .ge => decide (b ≤ a)
    | .le => decide (a ≤ b)

/-- Numeric view of a value: Python bools are ints, so they coerce;
dates do not. -/
def Value.toNum : Value → Option NumVal
  | .num x => some x
  | .bool b => some (.q (if b then 1 else 0))
  | .date _ => none

/-- Python comparison of two dynamic values: dates compare with dates,
numbers (floats and bools) compare with each other; a mixed pair is
unequal under `eq` and raises `TypeError` under an order operator. -/
def Value.cmp (c : Comparator) (v w : Value) : Except FilterError Bool :=
  match v, w with
  | .date a, .date b =>
    .ok (match c with
      | .eq => decide (a = b)
      | .ge => Date.ble b a
      | .le => Date.ble a b)
  | _, _ =>
    match v.toNum, w.toNum with
    | some x, some y => .ok (NumVal.cmp c x y)
    | _, _ =>
      match c with
      | .eq => .ok false
      | _ => .error .typeError

/-- Which class a filter object belongs to: the `AttributeFilter` base
class, or one of its five concrete subclasses. -/
inductive FilterClass
  | base
  | dateF
  | distanceF
  | velocityF
  | diameterF
  | hazardousF
deriving DecidableEq, Repr

/-- The per-class `get` classmethod (src/filters.py): the base class
raises `UnsupportedCriterionError`; each subclass reads its attribute of
interest. Reading through an unresolved `neo` reference raises
`AttributeError` (attribute of `None`). -/
def FilterClass.get (cls : FilterClass) (approach : CloseApproach) :
    Except FilterError Value :=
  match cls with
  | .base => .error .unsupportedCriterion
  | .dateF => .ok (.date approach.time.toDate)
  | .distanceF => .ok (.num approach.distance)
  | .velocityF => .ok (.num approach.velocity)
  | .diameterF =>
    match approach.neo with
    | some neo => .ok (.num neo.diameter)
    | none => .error .attributeError
  | .hazardousF =>
    match approach.neo with
    | some neo => .ok (.bool neo.hazardous)
    | none => .error .attributeError

/-- An `AttributeFilter` instance (src/filters.py): its class decides the
accessor, and it stores the comparator `op` and the reference `value`. -/
structure AttributeFilter where
  cls : FilterClass
  op : Comparator
  value : Value
deriving DecidableEq, Repr

/-- `AttributeFilter.__call__`: evaluate `op(get(approach), value)`. -/
def AttributeFilter.call (f : AttributeFilter) (approach : CloseApproach) :
    Except FilterError Bool :=
  match FilterClass.get f.cls approach with
  | .ok v => Value.cmp f.op v f.value
  | .error e => .error e

/-- `DateFilter(op, value)`: compares the calendar date of the approach. -/
def DateFilter (op : Comparator) (value : Date) : AttributeFilter :=
  { cls := .dateF, op := op, value := .date value }

/-- `DistanceFilter(op, value)`: compares the approach distance. -/
def DistanceFilter (op : Comparator) (value : NumVal) : AttributeFilter :=
  { cls := .distanceF, op := op, value := .num value }

/-- `VelocityFilter(op, value)`: compares the approach velocity. -/
def VelocityFilter (op : Comparator) (value : NumVal) : AttributeFilter :=
  { cls := .velocityF, op := op, value := .num value }

/-- `DiameterFilter(op, value)`: compares the diameter of the NEO. -/
def DiameterFilter (op : Comparator) (value : NumVal) : AttributeFilter :=
  { cls := .diameterF, op := op, value := .num value }

/-- `HazardousFilter(op, value)`: compares the hazardous flag of the NEO. -/
def HazardousFilter (op : Comparator) (value : Bool) : AttributeFilter :=
  { cls := .hazardousF, op := op, value := .bool value }

/-- One conditional `filters.add(...)` step of `create_filters`: the
option contributes its filter when it is not `None` and nothing
otherwise. The Python set of (pairwise distinct) filter objects is
embedded as a list. -/
def addIfSome {α : Type} (o : Option α) (g : α → AttributeFilter) :
    List AttributeFilter :=
  match o with
  | some x => [g x]
  | none => []

/-- `create_filters` (src/filters.py): one filter per option that is not
`None`, with the operator fixed by the name of the option. -/
def create_filters (date start_date end_date : Option Date)
    (distance_min distance_max velocity_min velocity_max : Option NumVal)
    (diameter_min diameter_max : Option NumVal)
    (hazardous : Option Bool) : List AttributeFilter :=
  addIfSome date (fun d => DateFilter .eq d) ++
  addIfSome start_date (fun d => DateFilter .ge d) ++
  addIfSome end_date (fun d => DateFilter .le d) ++
  addIfSome distance_min (fun x => DistanceFilter .ge x) ++
  addIfSome distance_max (fun x => DistanceFilter .le x) ++
  addIfSome velocity_min (fun x => VelocityFilter .ge x) ++
  addIfSome velocity_max (fun x => VelocityFilter .le x) ++
  addIfSome diameter_min (fun x => DiameterFilter .ge x) ++
  addIfSome diameter_max (fun x => DiameterFilter .le x) ++
  addIfSome hazardous (fun b => HazardousFilter .eq b)

/-- The number of filters an option contributes: one when present. -/
def optCount {α : Type} (o : Option α) : Nat :=
  if o.isSome then 1 else 0

/-- Python `ValueError`, raised by `itertools.islice` on a negative cap. -/
inductive ValueError
  | mk
deriving DecidableEq, Repr

/-- `itertools.islice(iterator, n)`: the first `n` values; a negative
`n` raises `ValueError` when the slice is built. Iterators are embedded
as the lists of values they yield. -/
def islice {α : Type} (it : List α) (n : Int) : Except ValueError (List α) :=
  if n < 0 then .error .mk else .ok (it.take n.toNat)

/-- `limit` (src/filters.py): pass the stream through unchanged when `n`
is `None` or `0`, otherwise slice it to at most `n` values. -/
def limit {α : Type} (it : List α) (n : Option Int) : Except ValueError (List α) :=
  match n with
  | none => .ok it
  | some m => if m = 0 then .ok it else islice it m

/-- Python `all` over the filter evaluations on one approach, with the
short-circuit of the generator expression. -/
def evalAll (fs : List AttributeFilter) (a : CloseApproach) :
    Except FilterError Bool :=
  match fs with
  | [] => .ok true
  | f :: rest =>
    match f.call a with
    | .ok true => evalAll rest a
    | .ok false => .ok false
    | .error e => .error e

/-- Modelled from the spec: `NEODatabase.query` (the database module is
not among the four source files) iterates the approaches of the catalog
in their original load order and produces those for which every filter
in the collection evaluates true. -/
def query (approaches : List CloseApproach) (fs : List AttributeFilter) :
    Except FilterError (List CloseApproach) :=
  match approaches with
  | [] => .ok []
  | a :: rest =>
    match evalAll fs a with
    | .ok true =>
      match query rest fs with
      | .ok tl => .ok (a :: tl)
      | .error e => .error e
    | .ok false => query rest fs
    | .error e => .error e

/-- The predicate the hazardous filter with reference `false` encodes:
the approach has a resolved NEO and that NEO is not hazardous. -/
def notHazardous (a : CloseApproach) : Bool :=
  match a.neo with
  | some n => !n.hazardous
  | none => false

/-- A concrete hazardous NEO for the C3 witness catalog. -/
def neoHaz : NearEarthObject :=
  { designation := "2020 AB", name := none, diameter := .q 1, hazardous := true }

/-- A concrete non-hazardous NEO for the C3 witness catalog. -/
def neoSafe : NearEarthObject :=
  { designation := "433", name := some "Eros", diameter := .q 2, hazardous := false }

/-- A concrete timestamp for witness approaches. -/
def t0 : DateTime := { year := 2020, month := 1, day := 1, hour := 12, minute := 30 }

/-- A concrete close approach of the hazardous NEO. -/
def apHaz : CloseApproach :=
  { designation := "2020 AB", time := t0, distance := .q 1, velocity := .q 10,
    neo := some neoHaz }

/-- A concrete close approach of the non-hazardous NEO. -/
def apSafe : CloseApproach :=
  { designation := "433", time := t0, distance := .q 2, velocity := .q 20,
    neo := some neoSafe }

/-- The load-time failure of the spec taxonomy (`ParseError`); in the
code it surfaces as the Python `ValueError` that the float constructor
or the datetime parser raises on malformed text. -/
inductive ParseError
  | valueError
deriving DecidableEq, Repr

/-- A raw numeric text field as the loader sees it: the empty string, a
string the Python float constructor parses to some value, or a string it
rejects. -/
inductive RawNum
  | empty
  | valid (x : NumVal)
  | malformed
deriving DecidableEq, Repr

/-- `float(text)`: the parsed value, or `ValueError` when the text is
empty or malformed. -/
def parseFloat : RawNum → Except ParseError NumVal
  | .valid x => .ok x
  | .empty => .error .valueError
  | .malformed => .error .valueError

/-- One row of the NEO CSV file as `csv.DictReader` hands it to the
constructor: the columns the constructor reads. -/
structure NeoRow where
  pdes : String
  name : String
  diameter : RawNum
  pha : String
deriving DecidableEq, Repr

/-- `NearEarthObject.__init__` (src/models.py): empty name becomes
`None`, empty diameter becomes NaN and otherwise the text is parsed as a
float, and the hazardous flag is true exactly for the marker `"Y"`. -/
def NearEarthObject.ofRow (info : NeoRow) : Except ParseError NearEarthObject :=
  let designation := info.pdes
  let name := if info.name = "" then none else some info.name
  match if info.diameter = RawNum.empty then Except.ok NumVal.nan
        else parseFloat info.diameter with
  | .error e => .error e
  | .ok diameter =>
    let hazardous := if info.pha = "Y" then true else false
    .ok { designation := designation, name := name, diameter := diameter,
          hazardous := hazardous }

/-- `load_neos` (src/extract.py): construct one `NearEarthObject` per
row, in row order; an exception from a constructor aborts the loop, so
no list is produced at all. -/
def load_neos (rows : List NeoRow) : Except ParseError (List NearEarthObject) :=
  match rows with
  | [] => .ok []
  | r :: rest =>
    match NearEarthObject.ofRow r with
    | .ok n =>
      match load_neos rest with
      | .ok tl => .ok (n :: tl)
      | .error e => .error e
    | .error e => .error e

/-- A raw timestamp text field: either the datetime parser accepts it or
it rejects it. -/
inductive RawTime
  | valid (t : DateTime)
  | malformed
deriving DecidableEq, Repr

/-- Modelled from the spec: `helpers.cd_to_datetime` (the helpers module
is not among the four source files), the external collaborator
`parse_datetime(string) -> Timestamp`; it raises on text it cannot
parse. -/
def cd_to_datetime : RawTime → Except ParseError DateTime
  | .valid t => .ok t
  | .malformed => .error .valueError

/-- One entry of the close-approach JSON data: the fixed positions the
constructor reads (0 designation, 3 timestamp, 4 distance, 7 velocity). -/
structure CadRow where
  des : String
  cd : RawTime
  dist : RawNum
  v_rel : RawNum
deriving DecidableEq, Repr

/-- `CloseApproach.__init__` (src/models.py): parse the timestamp, the
distance and the velocity; the `neo` reference starts out unresolved. -/
def CloseApproach.ofRow (info : CadRow) : Except ParseError CloseApproach :=
  match cd_to_datetime info.cd with
  | .error e => .error e
  | .ok time =>
    match parseFloat info.dist with
    | .error e => .error e
    | .ok distance =>
      match parseFloat info.v_rel with
      | .error e => .error e
      | .ok velocity =>
        .ok { designation := info.des, time := time, distance := distance,
              velocity := velocity, neo := none }

/-- `load_approaches` (src/extract.py): construct one `CloseApproach`
per entry of the `data` list, in order; an exception aborts the loop. -/
def load_approaches (rows : List CadRow) : Except ParseError (List CloseApproach) :=
  match rows with
  | [] => .ok []
  | r :: rest =>
    match CloseApproach.ofRow r with
    | .ok a =>
      match load_approaches rest with
      | .ok tl => .ok (a :: tl)
      | .error e => .error e
    | .error e => .error e

/-- A Python value as it sits in a CSV output row before the writer
renders it to text. -/
inductive PyVal
  | pstr (s : String)
  | pfloat (x : NumVal)
  | pbool (b : Bool)
  | pnone
  | pdatetime (t : DateTime)
deriving DecidableEq, Repr

/-- The `name` attribute as a cell value: Python `None` or a string. -/
def pyName : Option String → PyVal
  | none => .pnone
  | some s => .pstr s

/-- The fixed `fieldnames` header row of `write_to_csv` (src/write.py). -/
def fieldnames : List PyVal :=
  [.pstr "datetime_utc", .pstr "distance_au", .pstr "velocity_km_s",
   .pstr "designation", .pstr "name", .pstr "diameter_km",
   .pstr "potentially_hazardous"]

/-- The `row` list built for one approach inside `write_to_csv`; reading
the attributes of an unresolved `neo` raises `AttributeError`. -/
def csvRow (approach : CloseApproach) : Except FilterError (List PyVal) :=
  match approach.neo with
  | none => .error .attributeError
  | some neo =>
    .ok [PyVal.pdatetime approach.time, .pfloat approach.distance,
         .pfloat approach.velocity, .pstr neo.designation, pyName neo.name,
         .pfloat neo.diameter, .pbool neo.hazardous]

/-- The `for approach in results: writer.writerow(row)` loop of
`write_to_csv`. -/
def csvRows (results : List CloseApproach) :
    Except FilterError (List (List PyVal)) :=
  match results with
  | [] => .ok []
  | a :: rest =>
    match csvRow a with
    | .ok row =>
      match csvRows rest with
      | .ok tl => .ok (row :: tl)
      | .error e => .error e
    | .error e => .error e

/-- `write_to_csv` (src/write.py): the header row first, then one row
per approach in stream order. The written file is embedded as the list
of rows of cell values handed to the csv writer. -/
def write_to_csv (results : List CloseApproach) :
    Except FilterError (List (List PyVal)) :=
  match csvRows results with
  | .ok rows => .ok (fieldnames :: rows)
  | .error e => .error e

/-- How the Python csv writer renders one cell to text: `None` becomes
the empty field, a string is written as is, a bool as `True`/`False`, a
datetime as its canonical string form; the text the str builtin gives a
float is taken as a parameter `fstr` (its exact shortest-decimal output
is a property of the Python runtime, and nothing here depends on it). -/
def csvCell (fstr : NumVal → String) : PyVal → String
  | .pstr s => s
  | .pfloat x => fstr x
  | .pbool b => if b then "True" else "False"
  | .pnone => ""
  | .pdatetime t => t.canonicalStr

/-- The rows `write_to_csv` produces on the stream `[apSafe]`, for the
C8 witness. -/
def csvRowsW : List (List PyVal) :=
  [fieldnames,
   [PyVal.pdatetime t0, .pfloat (.q 2), .pfloat (.q 20), .pstr "433",
    pyName (some "Eros"), .pfloat (.q 2), .pbool false]]

/-- A fixed float rendering for the C8 witness. -/
def fstrW : NumVal → String := fun _ => "0"

/-- A JSON document tree as `json.dump` receives it. -/
inductive JVal
  | jnull
  | jbool (b : Bool)
  | jnum (x : NumVal)
  | jstr (s : String)
  | jarr (xs : List JVal)
  | jobj (fields : List (String × JVal))

/-- `CloseApproach.time_str` (src/models.py): the formatted, seconds-
omitted representation of the approach time. -/
def CloseApproach.time_str (a : CloseApproach) : String :=
  datetime_to_str a.time

/-- The `name` attribute as a JSON value: Python `None` dumps as JSON
null, a string as a JSON string. -/
def jsonName : Option String → JVal
  | none => .jnull
  | some s => .jstr s

/-- The dictionary built for one approach inside `write_to_json`. -/
def approachJson (approach : CloseApproach) : Except FilterError JVal :=
  match approach.neo with
  | none => .error .attributeError
  | some neo =>
    .ok (.jobj
      [("datetime_utc", .jstr approach.time_str),
       ("distance_au", .jnum approach.distance),
       ("velocity_km_s", .jnum approach.velocity),
       ("neo", .jobj
         [("designation", .jstr neo.designation),
          ("name", jsonName neo.name),
          ("diameter_km", .jnum neo.diameter),
          ("potentially_hazardous", .jbool neo.hazardous)])])

/-- The `for approach in results: dict_list.append(dictionary)` loop of
`write_to_json`. -/
def jsonRows (results : List CloseApproach) : Except FilterError (List JVal) :=
  match results with
  | [] => .ok []
  | a :: rest =>
    match approachJson a with
    | .ok obj =>
      match jsonRows rest with
      | .ok tl => .ok (obj :: tl)
      | .error e => .error e
    | .error e => .error e

/-- `write_to_json` (src/write.py): dump the list of per-approach
dictionaries as one JSON array. -/
def write_to_json (results : List CloseApproach) : Except FilterError JVal :=
  match jsonRows results with
  | .ok objs => .ok (.jarr objs)
  | .error e => .error e

/-- The array entries `write_to_json` produces on the stream `[apHaz]`
(whose NEO has no name), for the C10 witness. -/
def jsonObjsW : List JVal :=
  [.jobj
    [("datetime_utc", .jstr (datetime_to_str t0)),
     ("distance_au", .jnum (.q 1)),
     ("velocity_km_s", .jnum (.q 10)),
     ("neo", .jobj
       [("designation", .jstr "2020 AB"),
        ("name", .jnull),
        ("diameter_km", .jnum (.q 1)),
        ("potentially_hazardous", .jbool true)])]]

theorem mem_addIfSome {α : Type} {o : Option α} {g : α → AttributeFilter}
    {f : AttributeFilter} : f ∈ addIfSome o g ↔ ∃ x, o = some x ∧ f = g x := by
  cases o <;> simp [addIfSome]

theorem length_addIfSome {α : Type} (o : Option α) (g : α → AttributeFilter) :
    (addIfSome o g).length = optCount o := by
  cases o <;> simp [addIfSome, optCount]

/-- C1: `create_filters` returns one filter per option that is not
`None` and none for an omitted option; the operator is fixed by the name
of the option (`date` equal, `start_date` greater-or-equal, `end_date`
less-or-equal, each `min` greater-or-equal, each `max` less-or-equal,
`hazardous` equal) and the accessor matches the attribute; with no
arguments the result is empty. -/
theorem create_filters_one_filter_per_option
    (date start_date end_date : Option Date)
    (distance_min distance_max velocity_min velocity_max : Option NumVal)
    (diameter_min diameter_max : Option NumVal)
    (hazardous : Option Bool) :
    (create_filters date start_date end_date distance_min distance_max
        velocity_min velocity_max diameter_min diameter_max hazardous).length =
      optCount date + optCount start_date + optCount end_date +
      optCount distance_min + optCount distance_max +
      optCount velocity_min + optCount velocity_max +
      optCount diameter_min + optCount diameter_max + optCount hazardous ∧
    (∀ f, f ∈ create_filters date start_date end_date distance_min distance_max
        velocity_min velocity_max diameter_min diameter_max hazardous ↔
      ((∃ d, date = some d ∧ f = DateFilter .eq d) ∨
       (∃ d, start_date = some d ∧ f = DateFilter .ge d) ∨
       (∃ d, end_date = some d ∧ f = DateFilter .le d) ∨
       (∃ x, distance_min = some x ∧ f = DistanceFilter .ge x) ∨
       (∃ x, distance_max = some x ∧ f = DistanceFilter .le x) ∨
       (∃ x, velocity_min = some x ∧ f = VelocityFilter .ge x) ∨
       (∃ x, velocity_max = some x ∧ f = VelocityFilter .le x) ∨
       (∃ x, diameter_min = some x ∧ f = DiameterFilter .ge x) ∨
       (∃ x, diameter_max = some x ∧ f = DiameterFilter .le x) ∨
       (∃ b, hazardous = some b ∧ f = HazardousFilter .eq b))) ∧
    create_filters none none none none none none none none none none = [] := by
  refine ⟨?_, ?_, rfl⟩
  · simp only [create_filters, List.length_append, length_addIfSome]
  · intro f
    simp only [create_filters, List.mem_append, mem_addIfSome, or_assoc]

/-- C2: `limit` passes the stream through unchanged when the cap is
`None` or `0`; for a positive cap `m` it yields exactly the first
`min m (length)` values of the stream, in order, and never more than
`m` values. -/
theorem limit_caps_stream {α : Type} (it : List α) :
    limit it none = .ok it ∧ limit it (some 0) = .ok it ∧
    ∀ m : Int, 0 < m →
      limit it (some m) = .ok (it.take m.toNat) ∧
      (it.take m.toNat).length = min m.toNat it.length ∧
      (∀ i : Nat, i < m.toNat → (it.take m.toNat)[i]? = it[i]?) ∧
      (it.take m.toNat).length ≤ m.toNat := by
  refine ⟨rfl, rfl, fun m hm => ⟨?_, List.length_take m.toNat it, ?_, ?_⟩⟩
  · have h0 : ¬ m = 0 := by omega
    have h1 : ¬ m < 0 := by omega
    simp [limit, islice, h0, h1]
  · intro i hi
    simp [List.getElem?_take, hi]
  · simp [List.length_take]

/-- C9: a negative cap makes `limit` raise `ValueError` (from the slice
construction) rather than return a stream. -/
theorem limit_negative_cap_raises {α : Type} (it : List α) (m : Int)
    (h : m < 0) :
    limit it (some m) = .error .mk ∧ ∀ l : List α, limit it (some m) ≠ .ok l := by
  have h0 : ¬ m = 0 := by omega
  refine ⟨by simp [limit, islice, h0, h], ?_⟩
  intro l hl
  simp [limit, islice, h0, h] at hl

/-- Witness for C9 at a concrete stream and cap. -/
theorem limit_negative_cap_raises_witness :
    limit ([1, 2, 3] : List Nat) (some (-1)) = .error .mk ∧
    ∀ l : List Nat, limit ([1, 2, 3] : List Nat) (some (-1)) ≠ .ok l :=
  limit_negative_cap_raises [1, 2, 3] (-1) (by decide)

/-- C4: calling a filter whose class never specialized the accessor (the
`AttributeFilter` base class itself) raises `UnsupportedCriterionError`,
whatever the operator, reference value and approach; it never returns a
match or a non-match. -/
theorem base_filter_raises_unsupported (op : Comparator) (v : Value)
    (a : CloseApproach) :
    AttributeFilter.call ⟨.base, op, v⟩ a = .error .unsupportedCriterion ∧
    ∀ b : Bool, AttributeFilter.call ⟨.base, op, v⟩ a ≠ .ok b := by
  refine ⟨rfl, ?_⟩
  intro b hb
  simp [AttributeFilter.call, FilterClass.get] at hb

theorem hazardousFilter_call (b : Bool) (a : CloseApproach)
    (n : NearEarthObject) (h : a.neo = some n) :
    (HazardousFilter .eq b).call a = .ok (n.hazardous == b) := by
  simp only [AttributeFilter.call, HazardousFilter, FilterClass.get, h]
  cases n.hazardous <;> cases b <;> rfl

theorem query_no_filters (db : List CloseApproach) : query db [] = .ok db := by
  induction db with
  | nil => rfl
  | cons a rest ih => simp [query, evalAll, ih]

theorem query_hazardous_false (db : List CloseApproach)
    (hjoin : ∀ a ∈ db, a.neo.isSome) :
    query db [HazardousFilter .eq false] = .ok (db.filter notHazardous) := by
  induction db with
  | nil => rfl
  | cons a rest ih =>
    obtain ⟨n, hn⟩ := Option.isSome_iff_exists.mp (hjoin a (by simp))
    have hrest := ih (fun x hx => hjoin x (by simp [hx]))
    have hcall := hazardousFilter_call false a n hn
    cases hhaz : n.hazardous <;>
      simp [query, evalAll, hcall, hhaz, hrest, List.filter_cons, notHazardous, hn]

/-- C3: on a joined catalog holding both a hazardous and a
non-hazardous object, `create_filters` with `hazardous = False` yields
exactly the hazardous filter, querying with it keeps exactly the
approaches whose NEO is not hazardous, while `hazardous = None` yields
no filter at all and querying keeps every approach; the two result sets
differ. -/
theorem hazardous_false_differs_from_none (db : List CloseApproach)
    (hjoin : ∀ a ∈ db, a.neo.isSome)
    (hhaz : ∃ a ∈ db, ∃ n, a.neo = some n ∧ n.hazardous = true)
    (_hsafe : ∃ a ∈ db, ∃ n, a.neo = some n ∧ n.hazardous = false) :
    create_filters none none none none none none none none none (some false) =
      [HazardousFilter .eq false] ∧
    query db (create_filters none none none none none none none none none
        (some false)) = .ok (db.filter notHazardous) ∧
    query db (create_filters none none none none none none none none none
        none) = .ok db ∧
    query db (create_filters none none none none none none none none none
        (some false)) ≠
      query db (create_filters none none none none none none none none none
        none) := by
  refine ⟨rfl, ?_, ?_, ?_⟩
  · exact query_hazardous_false db hjoin
  · exact query_no_filters db
  · have hone : create_filters none none none none none none none none none
        (some false) = [HazardousFilter .eq false] := rfl
    have hzero : create_filters none none none none none none none none none
        none = ([] : List AttributeFilter) := rfl
    rw [hone, hzero, query_hazardous_false db hjoin, query_no_filters db]
    intro hcontra
    obtain ⟨a, ha, n, hn, hnh⟩ := hhaz
    have heq : db.filter notHazardous = db := by
      simpa using hcontra
    have : a ∈ db.filter notHazardous := by rw [heq]; exact ha
    have : notHazardous a = true := (List.mem_filter.mp this).2
    simp [notHazardous, hn, hnh] at this

/-- Witness for C3: a two-approach catalog with one hazardous and one
non-hazardous object. -/
theorem hazardous_false_differs_from_none_witness :
    create_filters none none none none none none none none none (some false) =
      [HazardousFilter .eq false] ∧
    query [apHaz, apSafe] (create_filters none none none none none none none
        none none (some false)) = .ok ([apHaz, apSafe].filter notHazardous) ∧
    query [apHaz, apSafe] (create_filters none none none none none none none
        none none none) = .ok [apHaz, apSafe] ∧
    query [apHaz, apSafe] (create_filters none none none none none none none
        none none (some false)) ≠
      query [apHaz, apSafe] (create_filters none none none none none none none
        none none none) :=
  hazardous_false_differs_from_none [apHaz, apSafe]
    (by intro a ha; fin_cases ha <;> rfl)
    ⟨apHaz, by simp, neoHaz, rfl, rfl⟩
    ⟨apSafe, by simp, neoSafe, rfl, rfl⟩

theorem ofRow_designation (r : NeoRow) (n : NearEarthObject)
    (h : NearEarthObject.ofRow r = .ok n) : n.designation = r.pdes := by
  cases hd : r.diameter <;>
    simp [NearEarthObject.ofRow, parseFloat, hd] at h <;>
    simp [← h]

theorem load_neos_designations (rows : List NeoRow)
    (neos : List NearEarthObject) (h : load_neos rows = .ok neos) :
    ∀ b ∈ neos, ∃ s ∈ rows, b.designation = s.pdes := by
  induction rows generalizing neos with
  | nil =>
    simp only [load_neos] at h
    cases h
    simp
  | cons a rest ih =>
    simp only [load_neos] at h
    cases ha : NearEarthObject.ofRow a with
    | error e => rw [ha] at h; cases h
    | ok n =>
      rw [ha] at h
      cases hrest : load_neos rest with
      | error e => rw [hrest] at h; cases h
      | ok tl =>
        rw [hrest] at h
        cases h
        intro b hb
        rcases List.mem_cons.mp hb with rfl | hmem
        · exact ⟨a, by simp, ofRow_designation a b ha⟩
        · obtain ⟨s, hs, hds⟩ := ih tl hrest b hmem
          exact ⟨s, by simp [hs], hds⟩

/-- C5 counterexample: two CSV rows sharing the designation `"2020 AB"`
load into two distinct `NearEarthObject` values with equal designations,
so a loaded catalog need not hold one object per designation. -/
theorem load_neos_duplicate_designation :
    load_neos
        [{ pdes := "2020 AB", name := "Alpha", diameter := .valid (.q 1), pha := "N" },
         { pdes := "2020 AB", name := "Beta", diameter := .valid (.q 2), pha := "N" }] =
      .ok
        [{ designation := "2020 AB", name := some "Alpha", diameter := .q 1,
           hazardous := false },
         { designation := "2020 AB", name := some "Beta", diameter := .q 2,
           hazardous := false }] ∧
    ({ designation := "2020 AB", name := some "Alpha", diameter := .q 1,
       hazardous := false } : NearEarthObject) ≠
      { designation := "2020 AB", name := some "Beta", diameter := .q 2,
        hazardous := false } ∧
    ({ designation := "2020 AB", name := some "Alpha", diameter := .q 1,
       hazardous := false } : NearEarthObject).designation =
      ({ designation := "2020 AB", name := some "Beta", diameter := .q 2,
         hazardous := false } : NearEarthObject).designation := by
  refine ⟨rfl, ?_, rfl⟩
  decide

/-- C5 as amended: when the source rows carry pairwise distinct
designations (which the real dataset guarantees), `load_neos` yields a
catalog in which any two distinct objects have distinct designations,
one object per designation. -/
theorem load_neos_unique_designations (rows : List NeoRow)
    (neos : List NearEarthObject)
    (hrows : rows.Pairwise (fun r s => r.pdes ≠ s.pdes))
    (h : load_neos rows = .ok neos) :
    neos.Pairwise (fun a b => a.designation ≠ b.designation) := by
  induction rows generalizing neos with
  | nil =>
    simp only [load_neos] at h
    cases h
    exact List.Pairwise.nil
  | cons a rest ih =>
    simp only [load_neos] at h
    cases ha : NearEarthObject.ofRow a with
    | error e => rw [ha] at h; cases h
    | ok n =>
      rw [ha] at h
      cases hrest : load_neos rest with
      | error e => rw [hrest] at h; cases h
      | ok tl =>
        rw [hrest] at h
        cases h
        refine List.Pairwise.cons ?_ (ih tl (List.pairwise_cons.mp hrows).2 hrest)
        intro b hb
        obtain ⟨s, hs, hds⟩ := load_neos_designations rest tl hrest b hb
        have hne : a.pdes ≠ s.pdes := (List.pairwise_cons.mp hrows).1 s hs
        rw [ofRow_designation a n ha, hds]
        exact hne

theorem ofRow_malformed_diameter (r : NeoRow)
    (h : r.diameter = RawNum.malformed) :
    NearEarthObject.ofRow r = .error .valueError := by
  simp [NearEarthObject.ofRow, parseFloat, h]

theorem ofRow_malformed_numeric (c : CadRow)
    (h : c.dist = RawNum.malformed ∨ c.v_rel = RawNum.malformed) :
    ∃ e, CloseApproach.ofRow c = .error e := by
  cases hcd : c.cd with
  | malformed => exact ⟨.valueError, by simp [CloseApproach.ofRow, cd_to_datetime, hcd]⟩
  | valid t =>
    rcases h with h | h
    · exact ⟨.valueError,
        by simp [CloseApproach.ofRow, cd_to_datetime, parseFloat, hcd, h]⟩
    · cases hdist : c.dist with
      | empty => exact ⟨.valueError,
          by simp [CloseApproach.ofRow, cd_to_datetime, parseFloat, hcd, hdist]⟩
      | malformed => exact ⟨.valueError,
          by simp [CloseApproach.ofRow, cd_to_datetime, parseFloat, hcd, hdist]⟩
      | valid x => exact ⟨.valueError,
          by simp [CloseApproach.ofRow, cd_to_datetime, parseFloat, hcd, hdist, h]⟩

theorem load_neos_error_of_row_error (rows : List NeoRow) (r : NeoRow)
    (hr : r ∈ rows) (e0 : ParseError)
    (h : NearEarthObject.ofRow r = .error e0) :
    ∃ e, load_neos rows = .error e := by
  induction rows with
  | nil => cases hr
  | cons a rest ih =>
    rcases List.mem_cons.mp hr with rfl | hmem
    · exact ⟨e0, by simp [load_neos, h]⟩
    · cases ha : NearEarthObject.ofRow a with
      | error e => exact ⟨e, by simp [load_neos, ha]⟩
      | ok n =>
        obtain ⟨e, he⟩ := ih hmem
        exact ⟨e, by simp [load_neos, ha, he]⟩

theorem load_approaches_error_of_row_error (rows : List CadRow) (c : CadRow)
    (hc : c ∈ rows) (e0 : ParseError)
    (h : CloseApproach.ofRow c = .error e0) :
    ∃ e, load_approaches rows = .error e := by
  induction rows with
  | nil => cases hc
  | cons a rest ih =>
    rcases List.mem_cons.mp hc with rfl | hmem
    · exact ⟨e0, by simp [load_approaches, h]⟩
    · cases ha : CloseApproach.ofRow a with
      | error e => exact ⟨e, by simp [load_approaches, ha]⟩
      | ok n =>
        obtain ⟨e, he⟩ := ih hmem
        exact ⟨e, by simp [load_approaches, ha, he]⟩

/-- C6: a malformed numeric text field — a diameter among the NEO rows,
or a distance or velocity among the close-approach entries — makes the
load fail with a `ParseError`; the whole load is aborted and no catalog,
partial or otherwise, is returned. -/
theorem malformed_numeric_aborts_load (rows : List NeoRow)
    (crows : List CadRow) :
    (∀ r ∈ rows, r.diameter = RawNum.malformed →
      (∃ e, load_neos rows = .error e) ∧
      ∀ l, load_neos rows ≠ .ok l) ∧
    (∀ c ∈ crows, c.dist = RawNum.malformed ∨ c.v_rel = RawNum.malformed →
      (∃ e, load_approaches crows = .error e) ∧
      ∀ l, load_approaches crows ≠ .ok l) := by
  constructor
  · intro r hr hm
    obtain ⟨e, he⟩ := load_neos_error_of_row_error rows r hr .valueError
      (ofRow_malformed_diameter r hm)
    exact ⟨⟨e, he⟩, fun l hl => by rw [he] at hl; cases hl⟩
  · intro c hc hm
    obtain ⟨e0, he0⟩ := ofRow_malformed_numeric c hm
    obtain ⟨e, he⟩ := load_approaches_error_of_row_error crows c hc e0 he0
    exact ⟨⟨e, he⟩, fun l hl => by rw [he] at hl; cases hl⟩

/-- C7: an empty name text yields `name = None` (not the empty string)
and a `fullname` equal to just the designation; a non-empty name text is
kept and `fullname` is the designation, a space, then the name. -/
theorem neo_name_and_fullname (row : NeoRow) (neo : NearEarthObject)
    (h : NearEarthObject.ofRow row = .ok neo) :
    neo.designation = row.pdes ∧
    (row.name = "" →
      neo.name = none ∧ neo.name ≠ some "" ∧ neo.fullname = row.pdes) ∧
    (row.name ≠ "" →
      neo.name = some row.name ∧
      neo.fullname = row.pdes ++ " " ++ row.name) := by
  refine ⟨ofRow_designation row neo h, ?_, ?_⟩ <;> intro hname <;>
    cases hd : row.diameter <;>
      simp [NearEarthObject.ofRow, parseFloat, hd, hname] at h <;>
      simp [← h, NearEarthObject.fullname, hname]

/-- Witness for C7 at one empty-name row and one named row. -/
theorem neo_name_and_fullname_witness :
    (({ pdes := "2010 PK9", name := "", diameter := .empty, pha := "Y" } :
        NeoRow).name = "" →
      ({ designation := "2010 PK9", name := none, diameter := .nan,
         hazardous := true } : NearEarthObject).name = none ∧
      ({ designation := "2010 PK9", name := none, diameter := .nan,
         hazardous := true } : NearEarthObject).name ≠ some "" ∧
      ({ designation := "2010 PK9", name := none, diameter := .nan,
         hazardous := true } : NearEarthObject).fullname = "2010 PK9") ∧
    (({ pdes := "433", name := "Eros", diameter := .valid (.q 1), pha := "N" } :
        NeoRow).name ≠ "" →
      ({ designation := "433", name := some "Eros", diameter := .q 1,
         hazardous := false } : NearEarthObject).name = some "Eros" ∧
      ({ designation := "433", name := some "Eros", diameter := .q 1,
         hazardous := false } : NearEarthObject).fullname = "433" ++ " " ++ "Eros") :=
  ⟨(neo_name_and_fullname
      { pdes := "2010 PK9", name := "", diameter := .empty, pha := "Y" }
      _ rfl).2.1,
   (neo_name_and_fullname
      { pdes := "433", name := "Eros", diameter := .valid (.q 1), pha := "N" }
      _ rfl).2.2⟩

/-- Witness for the amended C5 at a concrete two-row catalog. -/
theorem load_neos_unique_designations_witness :
    ([{ pdes := "433", name := "Eros", diameter := .valid (.q 1), pha := "N" },
      { pdes := "99942", name := "Apophis", diameter := .valid (.q 1), pha := "Y" }] :
        List NeoRow).Pairwise (fun r s => r.pdes ≠ s.pdes) ∧
    ([{ designation := "433", name := some "Eros", diameter := .q 1,
        hazardous := false },
      { designation := "99942", name := some "Apophis", diameter := .q 1,
        hazardous := true }] : List NearEarthObject).Pairwise
      (fun a b => a.designation ≠ b.designation) :=
  ⟨by decide,
   load_neos_unique_designations
     [{ pdes := "433", name := "Eros", diameter := .valid (.q 1), pha := "N" },
      { pdes := "99942", name := "Apophis", diameter := .valid (.q 1), pha := "Y" }]
     _ (by decide) rfl⟩

theorem csvCell_pyName (fstr : NumVal → String) (nm : Option String) :
    csvCell fstr (pyName nm) = nm.getD "" := by
  cases nm <;> rfl

theorem csvRows_spec (results : List CloseApproach) (rs : List (List PyVal))
    (h : csvRows results = .ok rs) :
    rs.length = results.length ∧
    ∀ (i : Nat) (a : CloseApproach) (n : NearEarthObject),
      results[i]? = some a → a.neo = some n →
      rs[i]? = some [PyVal.pdatetime a.time, .pfloat a.distance,
        .pfloat a.velocity, .pstr n.designation, pyName n.name,
        .pfloat n.diameter, .pbool n.hazardous] := by
  induction results generalizing rs with
  | nil =>
    simp only [csvRows] at h
    cases h
    simp
  | cons b rest ih =>
    simp only [csvRows] at h
    cases hb : csvRow b with
    | error e => rw [hb] at h; cases h
    | ok row =>
      rw [hb] at h
      cases hrest : csvRows rest with
      | error e => rw [hrest] at h; cases h
      | ok tl =>
        rw [hrest] at h
        cases h
        obtain ⟨hlen, hidx⟩ := ih tl hrest
        refine ⟨by simp [hlen], ?_⟩
        intro i a n hi hn
        match i with
        | 0 =>
          simp only [List.getElem?_cons_zero, Option.some.injEq] at hi
          subst hi
          rw [csvRow, hn] at hb
          cases hb
          simp
        | j + 1 =>
          simp only [List.getElem?_cons_succ] at hi ⊢
          exact hidx j a n hi hn

/-- C8: the CSV output is the exact header `datetime_utc, distance_au,
velocity_km_s, designation, name, diameter_km, potentially_hazardous`
followed by one row per approach in stream order; `datetime_utc` is the
non-truncated canonical timestamp string, the other fields carry their
native values through the cell renderer, and a `None` name comes out as
an empty field rather than a null marker. -/
theorem write_to_csv_format (fstr : NumVal → String)
    (results : List CloseApproach) (rows : List (List PyVal))
    (h : write_to_csv results = .ok rows) :
    (rows.map (List.map (csvCell fstr))).head? =
      some ["datetime_utc", "distance_au", "velocity_km_s", "designation",
            "name", "diameter_km", "potentially_hazardous"] ∧
    rows.length = results.length + 1 ∧
    ∀ (i : Nat) (a : CloseApproach) (n : NearEarthObject),
      results[i]? = some a → a.neo = some n →
      (rows.map (List.map (csvCell fstr)))[i + 1]? =
        some [a.time.canonicalStr, fstr a.distance, fstr a.velocity,
              n.designation, n.name.getD "", fstr n.diameter,
              if n.hazardous then "True" else "False"] := by
  unfold write_to_csv at h
  cases hrs : csvRows results with
  | error e => rw [hrs] at h; cases h
  | ok rs =>
    rw [hrs] at h
    cases h
    obtain ⟨hlen, hidx⟩ := csvRows_spec results rs hrs
    refine ⟨rfl, by simp [hlen], ?_⟩
    intro i a n hi hn
    have hrow := hidx i a n hi hn
    simp only [List.map_cons, List.getElem?_cons_succ, List.getElem?_map, hrow,
      Option.map_some]
    cases n.name <;> simp [csvCell, pyName]

/-- Witness for C8: the one-approach stream `[apSafe]` under a fixed
float rendering. -/
theorem write_to_csv_format_witness :
    (csvRowsW.map (List.map (csvCell fstrW))).head? =
      some ["datetime_utc", "distance_au", "velocity_km_s", "designation",
            "name", "diameter_km", "potentially_hazardous"] ∧
    csvRowsW.length = [apSafe].length + 1 ∧
    ∀ (i : Nat) (a : CloseApproach) (n : NearEarthObject),
      [apSafe][i]? = some a → a.neo = some n →
      (csvRowsW.map (List.map (csvCell fstrW)))[i + 1]? =
        some [a.time.canonicalStr, fstrW a.distance, fstrW a.velocity,
              n.designation, n.name.getD "", fstrW n.diameter,
              if n.hazardous then "True" else "False"] :=
  write_to_csv_format fstrW [apSafe] csvRowsW rfl

theorem jsonRows_spec (results : List CloseApproach) (objs : List JVal)
    (h : jsonRows results = .ok objs) :
    objs.length = results.length ∧
    ∀ (i : Nat) (a : CloseApproach) (n : NearEarthObject),
      results[i]? = some a → a.neo = some n →
      objs[i]? = some (.jobj
        [("datetime_utc", .jstr a.time_str),
         ("distance_au", .jnum a.distance),
         ("velocity_km_s", .jnum a.velocity),
         ("neo", .jobj
           [("designation", .jstr n.designation),
            ("name", jsonName n.name),
            ("diameter_km", .jnum n.diameter),
            ("potentially_hazardous", .jbool n.hazardous)])]) := by
  induction results generalizing objs with
  | nil =>
    simp only [jsonRows] at h
    cases h
    simp
  | cons b rest ih =>
    simp only [jsonRows] at h
    cases hb : approachJson b with
    | error e => rw [hb] at h; cases h
    | ok obj =>
      rw [hb] at h
      cases hrest : jsonRows rest with
      | error e => rw [hrest] at h; cases h
      | ok tl =>
        rw [hrest] at h
        cases h
        obtain ⟨hlen, hidx⟩ := ih tl hrest
        refine ⟨by simp [hlen], ?_⟩
        intro i a n hi hn
        match i with
        | 0 =>
          simp only [List.getElem?_cons_zero, Option.some.injEq] at hi
          subst hi
          rw [approachJson, hn] at hb
          cases hb
          simp
        | j + 1 =>
          simp only [List.getElem?_cons_succ] at hi ⊢
          exact hidx j a n hi hn

/-- C10: for an approach whose NEO has a `None` name, the JSON output
carries the nested `neo` object with the `name` key bound to JSON null
(while the CSV cell renderer turns the same `None` into an empty field);
`datetime_utc` is the seconds-omitted human format of the timestamp, and
distance, velocity, designation, diameter and hazardous keep their
native values. -/
theorem write_to_json_format (results : List CloseApproach) (objs : List JVal)
    (h : write_to_json results = .ok (.jarr objs)) :
    objs.length = results.length ∧
    (∀ (i : Nat) (a : CloseApproach) (n : NearEarthObject),
      results[i]? = some a → a.neo = some n → n.name = none →
      objs[i]? = some (.jobj
        [("datetime_utc", .jstr (datetime_to_str a.time)),
         ("distance_au", .jnum a.distance),
         ("velocity_km_s", .jnum a.velocity),
         ("neo", .jobj
           [("designation", .jstr n.designation),
            ("name", .jnull),
            ("diameter_km", .jnum n.diameter),
            ("potentially_hazardous", .jbool n.hazardous)])])) ∧
    (∀ fstr : NumVal → String, csvCell fstr .pnone = "") ∧
    ∀ t : DateTime, datetime_to_str t =
      pad4 t.year ++ "-" ++ pad2 t.month ++ "-" ++ pad2 t.day ++ " " ++
        pad2 t.hour ++ ":" ++ pad2 t.minute := by
  unfold write_to_json at h
  cases hjs : jsonRows results with
  | error e => rw [hjs] at h; cases h
  | ok objs0 =>
    rw [hjs] at h
    cases h
    obtain ⟨hlen, hidx⟩ := jsonRows_spec results _ hjs
    refine ⟨hlen, ?_, fun _ => rfl, fun _ => rfl⟩
    intro i a n hi hn hname
    have := hidx i a n hi hn
    rw [this]
    simp [CloseApproach.time_str, jsonName, hname]

/-- Witness for C10: the one-approach stream `[apHaz]`, whose NEO has a
`None` name. -/
theorem write_to_json_format_witness :
    jsonObjsW.length = [apHaz].length ∧
    (∀ (i : Nat) (a : CloseApproach) (n : NearEarthObject),
      [apHaz][i]? = some a → a.neo = some n → n.name = none →
      jsonObjsW[i]? = some (.jobj
        [("datetime_utc", .jstr (datetime_to_str a.time)),
         ("distance_au", .jnum a.distance),
         ("velocity_km_s", .jnum a.velocity),
         ("neo", .jobj
           [("designation", .jstr n.designation),
            ("name", .jnull),
            ("diameter_km", .jnum n.diameter),
            ("potentially_hazardous", .jbool n.hazardous)])])) ∧
    (∀ fstr : NumVal → String, csvCell fstr .pnone = "") ∧
    ∀ t : DateTime, datetime_to_str t =
      pad4 t.year ++ "-" ++ pad2 t.month ++ "-" ++ pad2 t.day ++ " " ++
        pad2 t.hour ++ ":" ++ pad2 t.minute :=
  write_to_json_format [apHaz] jsonObjsW rfl
